import Mathlib

/-!
Verification development for the CAN-SCRIPT-LOGGER repository.

Shallow embedding of:
 - `CANMirrorEngine` (src/can_mirror.py): rule table, unconditional RX cache,
   byte-rule transforms (offset with zero-baseline skip and clamping, replace),
   rate limiting, and the transmit path.
 - `CANReader.run` (src/pcan_logger.py): the acquisition thread's
   connect / read / reconnect loop, modelled as a step machine over a list of
   driver responses, emitting a list of connectivity events (`true` =
   connected, `false` = disconnected).
 - `MCUCSVLogger` (src/pcan_logger.py): the selector-gated CSV logger's
   update-counter discipline between `handle_message` and `_write_loop`.
 - `PCANViewClone.write_trc_entry` / `_log_timestamp_us` (src/pcan_logger.py):
   trace rotation and the timestamp synchronizer.

Machine integers are modelled as `Nat` / `Int` with explicit `% 256` where the
source masks with `& 0xFF`; wall-clock / monotonic times are `Int`
(milliseconds resp. microseconds); the driver's write result is passed in as a
`Bool` oracle (`true` = `PCAN_ERROR_OK`).
-/

/-- One byte rule, as stored in a rule's `byte_rules` list in
`can_mirror.py` (`{index, mode, value}`; `mode` is the string
`"offset"` or `"replace"`). -/
structure ByteRule where
  index : Int
  mode : String
  value : Int
deriving Repr, DecidableEq

/-- One mirror rule, as stored in `CANMirrorEngine.rules[rx_id]`
(`can_mirror.py`, `add_rule`). Times (`interval`, `last_sent`) are in
milliseconds. -/
structure MirrorRule where
  tx_id : Nat
  extended : Bool
  interval : Int
  last_sent : Int
  enabled : Bool
  byte_rules : List ByteRule
deriving Repr, DecidableEq

/-- A CAN message (`TPCANMsg`): identifier, length, eight data bytes,
and the extended-frame flag standing for `MSGTYPE`. -/
structure CANMsg where
  ID : Nat
  LEN : Nat
  DATA : List Nat
  extended : Bool
deriving Repr, DecidableEq

/-- State of `CANMirrorEngine` (`can_mirror.py`): the `rules` dict, the
`last_rx_data` dict, and whether an `on_tx` callback is registered. -/
structure CANMirrorEngine where
  rules : Nat → Option MirrorRule
  last_rx_data : Nat → Option (List Nat)
  hasOnTx : Bool

/-- Result of one `handle_rx` call: the new engine state, the frame passed to
`pcan.Write` if a write was issued (`attempted`), the frame actually
transmitted if that write returned `PCAN_ERROR_OK` (`sent`), and the frame the
`on_tx` observer callback was invoked with, if it was (`txEmitted`). -/
structure RxOut where
  state : CANMirrorEngine
  attempted : Option CANMsg
  sent : Option CANMsg
  txEmitted : Option CANMsg

/-- `CANMirrorEngine.add_rule` (can_mirror.py lines 24-39): installs a fresh
rule for `rx_id` with `last_sent = 0`, `enabled = True`, and
`byte_rules or []`. -/
def add_rule (st : CANMirrorEngine) (rx_id tx_id : Nat) (extended : Bool)
    (interval_ms : Int) (byte_rules : Option (List ByteRule)) : CANMirrorEngine :=
  { st with rules := fun i =>
      if i = rx_id then
        some { tx_id := tx_id, extended := extended, interval := interval_ms,
               last_sent := 0, enabled := true,
               byte_rules := byte_rules.getD [] }
      else st.rules i }

/-- `CANMirrorEngine.remove_rule` (can_mirror.py lines 41-42). -/
def remove_rule (st : CANMirrorEngine) (rx_id : Nat) : CANMirrorEngine :=
  { st with rules := fun i => if i = rx_id then none else st.rules i }

/-- `CANMirrorEngine.enable_rule` (can_mirror.py lines 44-46). -/
def enable_rule (st : CANMirrorEngine) (rx_id : Nat) (enable : Bool) : CANMirrorEngine :=
  { st with rules := fun i =>
      if i = rx_id then (st.rules i).map (fun ru => { ru with enabled := enable })
      else st.rules i }

/-- The raw payload extracted at the top of `handle_rx`
(can_mirror.py line 65): `[int(b) & 0xFF for b in msg.DATA[:msg.LEN]]`. -/
def rxRaw (msg : CANMsg) : List Nat :=
  (msg.DATA.take msg.LEN).map (fun b => b % 256)

/-- `CANMirrorEngine.get_rx_bytes` (can_mirror.py lines 51-56): take the first
eight cached bytes and append zeros until the list has length eight. -/
def get_rx_bytes (st : CANMirrorEngine) (rx_id : Nat) : List Nat :=
  let data := (st.last_rx_data rx_id).getD []
  let out := data.take 8
  out ++ List.replicate (8 - out.length) 0

/-- The body of the byte-rule loop in `handle_rx` (can_mirror.py lines
91-123): out-of-range index is skipped; `offset` leaves a zero byte alone and
otherwise clamps `original + value` into `[0, 255]`; `replace` stores
`value & 0xFF`. -/
def applyByteRule (data : List Nat) (br : ByteRule) : List Nat :=
  if 0 ≤ br.index ∧ br.index < (data.length : Int) then
    if br.mode = "offset" then
      let i := br.index.toNat
      let original := data.getD i 0
      if original = 0 then data
      else
        let n1 : Int := (original : Int) + br.value
        let n2 : Int := if n1 < 0 then 0 else n1
        let n3 : Int := if n2 > 255 then 255 else n2
        data.set i n3.toNat
    else if br.mode = "replace" then
      data.set br.index.toNat (br.value % 256).toNat
    else data
  else data

/-- The TX frame built in `handle_rx` (can_mirror.py lines 81-132): the rule's
`tx_id` and extended flag, the incoming length, and the transformed payload
zero-padded to eight bytes. -/
def ruleTx (ru : MirrorRule) (msg : CANMsg) (rx_data : List Nat) : CANMsg :=
  let data := ru.byte_rules.foldl applyByteRule rx_data
  { ID := ru.tx_id, LEN := msg.LEN,
    DATA := data ++ List.replicate (8 - data.length) 0,
    extended := ru.extended }

/-- The unconditional RX-cache update at the top of `handle_rx`
(can_mirror.py line 66): `self.last_rx_data[rx_id] = rx_data`; the rule table
and callback are untouched. -/
def cacheUpd (st : CANMirrorEngine) (msg : CANMsg) : CANMirrorEngine :=
  { rules := st.rules,
    last_rx_data := fun i =>
      if i = msg.ID then some (rxRaw msg) else st.last_rx_data i,
    hasOnTx := st.hasOnTx }

/-- Result of a `handle_rx` call that returns before reaching the write
(no rule, rule disabled, or rate-limited): only the cache changed. -/
def noRx (st : CANMirrorEngine) (msg : CANMsg) : RxOut :=
  { state := cacheUpd st msg, attempted := none, sent := none, txEmitted := none }

/-- Engine state after a successful write: the matched rule's `last_sent`
set to `now` (in-place mutation of the rule stored under `msg.ID`). -/
def txUpdState (st : CANMirrorEngine) (msg : CANMsg) (now : Int)
    (ru : MirrorRule) : CANMirrorEngine :=
  { rules := fun i =>
      if i = msg.ID then some { ru with last_sent := now } else st.rules i,
    last_rx_data := (cacheUpd st msg).last_rx_data,
    hasOnTx := st.hasOnTx }

/-- Result of a `handle_rx` call whose `pcan.Write` returned
`PCAN_ERROR_OK` (can_mirror.py lines 137-143): `last_sent` updated, and the
`on_tx` callback invoked when registered. -/
def okRx (st : CANMirrorEngine) (msg : CANMsg) (now : Int)
    (ru : MirrorRule) : RxOut :=
  { state := txUpdState st msg now ru,
    attempted := some (ruleTx ru msg (rxRaw msg)),
    sent := some (ruleTx ru msg (rxRaw msg)),
    txEmitted := if st.hasOnTx then some (ruleTx ru msg (rxRaw msg)) else none }

/-- Result of a `handle_rx` call whose `pcan.Write` failed: the write was
issued but `last_sent` is untouched and no callback fires. -/
def failRx (st : CANMirrorEngine) (msg : CANMsg) (ru : MirrorRule) : RxOut :=
  { state := cacheUpd st msg,
    attempted := some (ruleTx ru msg (rxRaw msg)),
    sent := none, txEmitted := none }

/-- `CANMirrorEngine.handle_rx` (can_mirror.py lines 61-143). `now` is
`time.time() * 1000` in milliseconds; `writeOk` is whether
`pcan.Write` returns `PCAN_ERROR_OK`. The RX cache is updated first,
unconditionally; then rule lookup, enablement, rate limiting, byte rules,
and the write whose success alone updates `last_sent` and fires `on_tx`. -/
def handle_rx (st : CANMirrorEngine) (msg : CANMsg) (now : Int) (writeOk : Bool) : RxOut :=
  match st.rules msg.ID with
  | none => noRx st msg
  | some ru =>
    if ru.enabled = false then noRx st msg
    else if 0 < ru.interval ∧ now - ru.last_sent < ru.interval then noRx st msg
    else if writeOk then okRx st msg now ru else failRx st msg ru

theorem handle_rx_of_none (st : CANMirrorEngine) (msg : CANMsg) (now : Int)
    (w : Bool) (h : st.rules msg.ID = none) :
    handle_rx st msg now w = noRx st msg := by
  unfold handle_rx
  rw [h]

theorem handle_rx_of_some (st : CANMirrorEngine) (msg : CANMsg) (now : Int)
    (w : Bool) (ru : MirrorRule) (h : st.rules msg.ID = some ru) :
    handle_rx st msg now w =
      (if ru.enabled = false then noRx st msg
       else if 0 < ru.interval ∧ now - ru.last_sent < ru.interval then noRx st msg
       else if w then okRx st msg now ru else failRx st msg ru) := by
  unfold handle_rx
  rw [h]

example :
    (handle_rx
      { rules := fun i =>
          if i = 0x100 then
            some { tx_id := 0x200, extended := false, interval := 0,
                   last_sent := 0, enabled := true,
                   byte_rules := [{ index := 0, mode := "offset", value := 10 }] }
          else none,
        last_rx_data := fun _ => none, hasOnTx := false }
      { ID := 0x100, LEN := 1, DATA := [5, 0, 0, 0, 0, 0, 0, 0], extended := false }
      0 true).sent =
    some { ID := 0x200, LEN := 1, DATA := [15, 0, 0, 0, 0, 0, 0, 0], extended := false } := by
  decide

/-- Zero-padding to eight bytes, as the spec describes the RX snapshot:
the first eight payload bytes followed by zeros up to length eight. -/
def pad8 (l : List Nat) : List Nat :=
  l.take 8 ++ List.replicate (8 - l.length) 0

theorem getD_set_self (l : List Nat) (i : Nat) (a d : Nat) (h : i < l.length) :
    (l.set i a).getD i d = a := by
  induction l generalizing i with
  | nil => simp at h
  | cons b t ih =>
    cases i with
    | zero => simp [List.set, List.getD]
    | succ n =>
      simp only [List.set, List.getD_cons_succ]
      exact ih n (by simpa using h)

/-- Engine used in the concrete C1 scenario: the spec's example rule
`{rx_id:0x100, tx_id:0x200, interval_ms:0, byte_rules:[{index:0, mode:Offset,
value:10}]}`, freshly installed and enabled. -/
def c1Rule : MirrorRule :=
  { tx_id := 0x200, extended := false, interval := 0, last_sent := 0,
    enabled := true,
    byte_rules := [{ index := 0, mode := "offset", value := 10 }] }

def c1Engine : CANMirrorEngine :=
  { rules := fun i => if i = 0x100 then some c1Rule else none,
    last_rx_data := fun _ => none, hasOnTx := false }

/-- Matching frame whose data byte at index 0 equals 0. -/
def c1Msg : CANMsg :=
  { ID := 0x100, LEN := 1, DATA := [0, 0, 0, 0, 0, 0, 0, 0], extended := false }

/-- Claim C1 counterexample: with the spec's example rule (enabled,
`interval_ms = 0`, byte rule `{index:0, mode:Offset, value:10}`) and a
matching frame whose byte 0 equals 0, `handle_rx` DOES issue a driver write
(and, the write succeeding, a frame is transmitted with byte 0 unchanged):
the zero baseline skips only the byte rule, not the transmission. -/
theorem c1_zero_byte_frame_transmitted_counterexample :
    (handle_rx c1Engine c1Msg 0 true).attempted ≠ none ∧
    (handle_rx c1Engine c1Msg 0 true).sent =
      some { ID := 0x200, LEN := 1, DATA := [0, 0, 0, 0, 0, 0, 0, 0],
             extended := false } := by
  decide

/-- Claim C1 (amended): for an enabled mirror rule with `interval_ms = 0` and
`byte_rules = [{index:0, mode:Offset, value:v}]`, a received matching frame
whose data byte at index 0 equals 0 is still mirrored — `handle_rx` issues a
driver write — and the transmitted frame's byte 0 equals the original 0 (the
zero-baseline no-op applies to the byte rule only, not to the transmission). -/
theorem c1_zero_baseline_byte_unchanged_still_transmits
    (st : CANMirrorEngine) (msg : CANMsg) (now : Int) (w : Bool)
    (ru : MirrorRule) (v : Int)
    (hr : st.rules msg.ID = some ru)
    (hen : ru.enabled = true)
    (hint : ru.interval = 0)
    (hbr : ru.byte_rules = [{ index := 0, mode := "offset", value := v }])
    (hlen : 1 ≤ msg.LEN) (hdata : msg.DATA.length = 8)
    (hzero : msg.DATA.getD 0 0 % 256 = 0) :
    (handle_rx st msg now w).attempted = some (ruleTx ru msg (rxRaw msg)) ∧
    (ruleTx ru msg (rxRaw msg)).DATA.getD 0 0 = 0 := by
  have hne : msg.DATA ≠ [] := by
    intro h
    rw [h] at hdata
    simp at hdata
  obtain ⟨b, t, hD⟩ := List.exists_cons_of_ne_nil hne
  obtain ⟨n, hn⟩ : ∃ n, msg.LEN = n + 1 := by
    cases hLEN : msg.LEN with
    | zero => omega
    | succ k => exact ⟨k, rfl⟩
  have hraw : rxRaw msg = b % 256 :: (t.take n).map (fun x => x % 256) := by
    simp [rxRaw, hD, hn]
  have hb : b % 256 = 0 := by
    rw [hD] at hzero
    simpa using hzero
  have happ : applyByteRule (rxRaw msg) { index := 0, mode := "offset", value := v } =
      rxRaw msg := by
    rw [hraw]
    simp [applyByteRule, hb]
  have htx : (ruleTx ru msg (rxRaw msg)).DATA.getD 0 0 = 0 := by
    simp only [ruleTx, hbr, List.foldl_cons, List.foldl_nil, happ]
    rw [hraw]
    simpa using hb
  refine ⟨?_, htx⟩
  rw [handle_rx_of_some st msg now w ru hr]
  have h1 : ¬ ru.enabled = false := by simp [hen]
  have h2 : ¬ (0 < ru.interval ∧ now - ru.last_sent < ru.interval) := by
    rw [hint]
    simp
  rw [if_neg h1, if_neg h2]
  cases w <;> simp [okRx, failRx]

/-- Claim C1 witness: the amended theorem applied to the concrete spec
scenario (rule offset+10 at index 0, incoming byte 0). -/
theorem c1_zero_baseline_witness :
    (handle_rx c1Engine c1Msg 7 true).attempted =
      some (ruleTx c1Rule c1Msg (rxRaw c1Msg)) ∧
    (ruleTx c1Rule c1Msg (rxRaw c1Msg)).DATA.getD 0 0 = 0 :=
  c1_zero_baseline_byte_unchanged_still_transmits c1Engine c1Msg 7 true c1Rule 10
    (by decide) (by decide) (by decide) (by decide) (by decide) (by decide) (by decide)

/-- Claim C6: `handle_rx` caches the raw (masked but untransformed) payload
for the frame's identifier unconditionally — for every engine state, rule
table, enablement, rate-limit state and write result — and `get_rx_bytes`
returns exactly that most recent raw payload zero-padded to eight bytes. -/
theorem c6_rx_cache_raw_unconditional (st : CANMirrorEngine) (msg : CANMsg)
    (now : Int) (w : Bool) :
    (handle_rx st msg now w).state.last_rx_data msg.ID = some (rxRaw msg) ∧
    get_rx_bytes (handle_rx st msg now w).state msg.ID = pad8 (rxRaw msg) := by
  have hcache : (handle_rx st msg now w).state.last_rx_data msg.ID =
      some (rxRaw msg) := by
    cases hsr : st.rules msg.ID with
    | none =>
      rw [handle_rx_of_none st msg now w hsr]
      simp [noRx, cacheUpd]
    | some ru =>
      rw [handle_rx_of_some st msg now w ru hsr]
      by_cases he : ru.enabled = false
      · simp [he, noRx, cacheUpd]
      · by_cases hrl : 0 < ru.interval ∧ now - ru.last_sent < ru.interval
        · simp [he, hrl, noRx, cacheUpd]
        · cases w <;>
            simp [he, hrl, noRx, okRx, failRx, txUpdState, cacheUpd]
  refine ⟨hcache, ?_⟩
  simp only [get_rx_bytes, hcache, Option.getD_some, pad8]
  have hlen : ((rxRaw msg).take 8).length = min 8 (rxRaw msg).length :=
    List.length_take 8 (rxRaw msg)
  have hsub : 8 - min 8 (rxRaw msg).length = 8 - (rxRaw msg).length := by omega
  rw [hlen, hsub]

/-- Claim C7: for an in-range byte rule in mode Offset, `handle_rx`'s
byte-rule transform leaves a zero byte untouched, and otherwise produces
exactly `clamp(original + value, 0, 255)`, which lies in `[0, 255]`. -/
theorem c7_offset_rule_zero_noop_and_clamp (data : List Nat) (br : ByteRule)
    (hm : br.mode = "offset") (h0 : 0 ≤ br.index)
    (h1 : br.index < (data.length : Int)) :
    (data.getD br.index.toNat 0 = 0 → applyByteRule data br = data) ∧
    (data.getD br.index.toNat 0 ≠ 0 →
      ((applyByteRule data br).getD br.index.toNat 0 : Int) =
        max 0 (min ((data.getD br.index.toNat 0 : Int) + br.value) 255) ∧
      (applyByteRule data br).getD br.index.toNat 0 ≤ 255) := by
  have hidx : br.index.toNat < data.length := by omega
  simp only [applyByteRule, if_pos (And.intro h0 h1), if_pos hm]
  constructor
  · intro hz
    rw [if_pos hz]
  · intro hnz
    rw [if_neg hnz]
    rw [getD_set_self _ _ _ _ hidx]
    set original : Nat := data.getD br.index.toNat 0 with horig
    constructor
    · split_ifs <;> omega
    · split_ifs <;> omega

/-- Claim C7 witness: byte value 5, offset 300 — clamped to 255. -/
theorem c7_offset_rule_witness :
    ((applyByteRule [5] { index := 0, mode := "offset", value := 300 }).getD
        (Int.toNat 0) 0 : Int) =
      max 0 (min ((([5] : List Nat).getD (Int.toNat 0) 0 : Int) + 300) 255) ∧
    (applyByteRule [5] { index := 0, mode := "offset", value := 300 }).getD
        (Int.toNat 0) 0 ≤ 255 :=
  (c7_offset_rule_zero_noop_and_clamp [5]
      { index := 0, mode := "offset", value := 300 }
      rfl (by decide) (by decide)).2 (by decide)


theorem handle_rx_attempted_some (st : CANMirrorEngine) (msg : CANMsg)
    (now : Int) (w : Bool) (ru : MirrorRule)
    (hr : st.rules msg.ID = some ru) (hen : ru.enabled = true)
    (hnl : ¬(0 < ru.interval ∧ now - ru.last_sent < ru.interval)) :
    (handle_rx st msg now w).attempted = some (ruleTx ru msg (rxRaw msg)) := by
  rw [handle_rx_of_some st msg now w ru hr]
  rw [if_neg (by simp [hen]), if_neg hnl]
  cases w <;> simp [okRx, failRx]

theorem handle_rx_attempted_inv (st : CANMirrorEngine) (msg : CANMsg)
    (now : Int) (w : Bool)
    (h : (handle_rx st msg now w).attempted ≠ none) :
    ∃ ru, st.rules msg.ID = some ru ∧ ru.enabled = true ∧
      ¬(0 < ru.interval ∧ now - ru.last_sent < ru.interval) := by
  cases hsr : st.rules msg.ID with
  | none =>
    rw [handle_rx_of_none st msg now w hsr] at h
    simp [noRx] at h
  | some ru =>
    rw [handle_rx_of_some st msg now w ru hsr] at h
    by_cases he : ru.enabled = false
    · rw [if_pos he] at h; simp [noRx] at h
    · by_cases hrl : 0 < ru.interval ∧ now - ru.last_sent < ru.interval
      · rw [if_neg he, if_pos hrl] at h; simp [noRx] at h
      · exact ⟨ru, rfl, by simpa using he, hrl⟩

theorem handle_rx_sent_inv (st : CANMirrorEngine) (msg : CANMsg)
    (now : Int) (w : Bool) (ru : MirrorRule)
    (hr : st.rules msg.ID = some ru)
    (hsent : (handle_rx st msg now w).sent ≠ none) :
    w = true ∧ ru.enabled = true ∧
      ¬(0 < ru.interval ∧ now - ru.last_sent < ru.interval) ∧
      (handle_rx st msg now w).state.rules msg.ID =
        some { ru with last_sent := now } := by
  rw [handle_rx_of_some st msg now w ru hr] at hsent ⊢
  by_cases he : ru.enabled = false
  · rw [if_pos he] at hsent; simp [noRx] at hsent
  · by_cases hrl : 0 < ru.interval ∧ now - ru.last_sent < ru.interval
    · rw [if_neg he, if_pos hrl] at hsent; simp [noRx] at hsent
    · rw [if_neg he, if_neg hrl] at hsent ⊢
      cases w with
      | false => simp [failRx] at hsent
      | true =>
        refine ⟨rfl, by simpa using he, hrl, ?_⟩
        simp [okRx, txUpdState]

theorem handle_rx_sent_none_of_limited (st : CANMirrorEngine) (msg : CANMsg)
    (now : Int) (w : Bool) (ru : MirrorRule)
    (hr : st.rules msg.ID = some ru)
    (h1 : 0 < ru.interval) (h2 : now - ru.last_sent < ru.interval) :
    (handle_rx st msg now w).sent = none := by
  rw [handle_rx_of_some st msg now w ru hr]
  by_cases he : ru.enabled = false
  · rw [if_pos he]
    rfl
  · rw [if_neg he, if_pos (And.intro h1 h2)]
    rfl

theorem handle_rx_rules_unchanged_of_w_false (st : CANMirrorEngine)
    (msg : CANMsg) (now : Int) :
    (handle_rx st msg now false).state.rules = st.rules := by
  cases hsr : st.rules msg.ID with
  | none =>
    rw [handle_rx_of_none st msg now false hsr]
    rfl
  | some ru =>
    rw [handle_rx_of_some st msg now false ru hsr]
    by_cases he : ru.enabled = false
    · rw [if_pos he]
      rfl
    · by_cases hrl : 0 < ru.interval ∧ now - ru.last_sent < ru.interval
      · rw [if_neg he, if_pos hrl]
        rfl
      · rw [if_neg he, if_neg hrl]
        simp [failRx, cacheUpd]

/-- Engine used in concrete rate-limit scenarios: one rule at `0x100` with a
5 ms interval, enabled, never yet fired. -/
def c8Rule : MirrorRule :=
  { tx_id := 0x200, extended := false, interval := 5, last_sent := 0,
    enabled := true, byte_rules := [] }

def c8Engine : CANMirrorEngine :=
  { rules := fun i => if i = 0x100 then some c8Rule else none,
    last_rx_data := fun _ => none, hasOnTx := false }

def c8Msg : CANMsg :=
  { ID := 0x100, LEN := 1, DATA := [1, 0, 0, 0, 0, 0, 0, 0], extended := false }

/-- Claim C8: for a rule with `interval_ms = T > 0` enabled throughout, two
matching receipts less than `T` ms apart yield at most one successful driver
transmission; and two receipts at least `T` ms apart may both transmit (there
is a run in which both writes go out). -/
theorem c8_rate_limit_at_most_one :
    (∀ (st : CANMirrorEngine) (msg1 msg2 : CANMsg) (t1 t2 : Int)
       (w1 w2 : Bool) (ru : MirrorRule),
       st.rules msg1.ID = some ru → msg2.ID = msg1.ID →
       ru.enabled = true → 0 < ru.interval → t1 ≤ t2 → t2 - t1 < ru.interval →
       (handle_rx st msg1 t1 w1).sent = none ∨
       (handle_rx (handle_rx st msg1 t1 w1).state msg2 t2 w2).sent = none) ∧
    (∃ (st : CANMirrorEngine) (msg : CANMsg) (t1 t2 : Int) (ru : MirrorRule),
       st.rules msg.ID = some ru ∧ ru.enabled = true ∧ 0 < ru.interval ∧
       ru.interval ≤ t2 - t1 ∧
       (handle_rx st msg t1 true).sent ≠ none ∧
       (handle_rx (handle_rx st msg t1 true).state msg t2 true).sent ≠ none) := by
  constructor
  · intro st msg1 msg2 t1 t2 w1 w2 ru hr hid hen hT hle hlt
    by_cases hs1 : (handle_rx st msg1 t1 w1).sent = none
    · exact Or.inl hs1
    · obtain ⟨_, _, _, hru'⟩ := handle_rx_sent_inv st msg1 t1 w1 ru hr hs1
      refine Or.inr (handle_rx_sent_none_of_limited _ _ _ _
        { ru with last_sent := t1 } ?_ hT ?_)
      · rw [hid]; exact hru'
      · simpa using hlt
  · exact ⟨c8Engine, c8Msg, 10, 15, c8Rule, by decide, by decide, by decide,
      by decide, by decide, by decide⟩

/-- Claim C8 witness: the at-most-one half applied to a concrete run where
the first receipt transmits and the second, 3 ms later against a 5 ms
interval, is throttled. -/
theorem c8_rate_limit_witness :
    (handle_rx c8Engine c8Msg 10 true).sent = none ∨
    (handle_rx (handle_rx c8Engine c8Msg 10 true).state c8Msg 13 false).sent = none :=
  c8_rate_limit_at_most_one.1 c8Engine c8Msg c8Msg 10 13 true false c8Rule
    (by decide) (by decide) (by decide) (by decide) (by decide) (by decide)

/-- Claim C9: in `handle_rx` (with an `on_tx` callback registered), the
observer callback fires exactly when a write was issued and succeeded; on a
failed or absent write the rule table — in particular the matched rule's
`last_sent` — is unchanged; on a successful write `last_sent` becomes `now`;
and after a failed write a later receipt at any time `now2 ≥ now` issues the
write again (the retry). -/
theorem c9_last_sent_and_callback_iff_write_ok (st : CANMirrorEngine)
    (msg : CANMsg) (now : Int) (w : Bool) (h : st.hasOnTx = true) :
    (((handle_rx st msg now w).txEmitted ≠ none) ↔
      ((handle_rx st msg now w).attempted ≠ none ∧ w = true)) ∧
    (w = false → (handle_rx st msg now w).state.rules = st.rules) ∧
    (∀ ru, st.rules msg.ID = some ru →
      (handle_rx st msg now w).attempted ≠ none → w = true →
      (handle_rx st msg now w).state.rules msg.ID =
        some { ru with last_sent := now }) ∧
    (w = false → (handle_rx st msg now w).attempted ≠ none →
      ∀ (now2 : Int) (w2 : Bool), now ≤ now2 →
        (handle_rx (handle_rx st msg now w).state msg now2 w2).attempted ≠ none) := by
  refine ⟨?_, ?_, ?_, ?_⟩
  · cases hsr : st.rules msg.ID with
    | none =>
      rw [handle_rx_of_none st msg now w hsr]
      simp [noRx]
    | some ru =>
      rw [handle_rx_of_some st msg now w ru hsr]
      by_cases he : ru.enabled = false
      · rw [if_pos he]; simp [noRx]
      · by_cases hrl : 0 < ru.interval ∧ now - ru.last_sent < ru.interval
        · rw [if_neg he, if_pos hrl]; simp [noRx]
        · rw [if_neg he, if_neg hrl]
          cases w with
          | true => simp [okRx, h]
          | false => simp [failRx]
  · intro hw
    subst hw
    exact handle_rx_rules_unchanged_of_w_false st msg now
  · intro ru hr hat hw
    subst hw
    rw [handle_rx_of_some st msg now true ru hr] at hat ⊢
    by_cases he : ru.enabled = false
    · rw [if_pos he] at hat; simp [noRx] at hat
    · by_cases hrl : 0 < ru.interval ∧ now - ru.last_sent < ru.interval
      · rw [if_neg he, if_pos hrl] at hat; simp [noRx] at hat
      · rw [if_neg he, if_neg hrl]
        simp [okRx, txUpdState]
  · intro hw hat now2 w2 hle
    subst hw
    obtain ⟨ru, hr, hen, hnl⟩ := handle_rx_attempted_inv st msg now false hat
    have hr2 : (handle_rx st msg now false).state.rules msg.ID = some ru := by
      rw [handle_rx_rules_unchanged_of_w_false st msg now]
      exact hr
    have hnl2 : ¬(0 < ru.interval ∧ now2 - ru.last_sent < ru.interval) := by
      rintro ⟨a, b⟩
      exact hnl ⟨a, by omega⟩
    rw [handle_rx_attempted_some _ msg now2 w2 ru hr2 hen hnl2]
    simp

/-- Engine with the callback registered, used for the C9 witness. -/
def c9Engine : CANMirrorEngine :=
  { rules := fun i =>
      if i = 0x100 then
        some { tx_id := 0x200, extended := false, interval := 0,
               last_sent := 0, enabled := true, byte_rules := [] }
      else none,
    last_rx_data := fun _ => none, hasOnTx := true }

def c9Msg : CANMsg :=
  { ID := 0x100, LEN := 2, DATA := [7, 9, 0, 0, 0, 0, 0, 0], extended := false }

/-- Claim C9 witness: the theorem applied to a concrete engine with the
callback registered and a failing write. -/
theorem c9_write_result_witness :
    (((handle_rx c9Engine c9Msg 4 false).txEmitted ≠ none) ↔
      ((handle_rx c9Engine c9Msg 4 false).attempted ≠ none ∧ false = true)) ∧
    (false = false → (handle_rx c9Engine c9Msg 4 false).state.rules = c9Engine.rules) ∧
    (∀ ru, c9Engine.rules c9Msg.ID = some ru →
      (handle_rx c9Engine c9Msg 4 false).attempted ≠ none → false = true →
      (handle_rx c9Engine c9Msg 4 false).state.rules c9Msg.ID =
        some { ru with last_sent := 4 }) ∧
    (false = false → (handle_rx c9Engine c9Msg 4 false).attempted ≠ none →
      ∀ (now2 : Int) (w2 : Bool), 4 ≤ now2 →
        (handle_rx (handle_rx c9Engine c9Msg 4 false).state c9Msg now2 w2).attempted ≠ none) :=
  c9_last_sent_and_callback_iff_write_ok c9Engine c9Msg 4 false (by decide)

/-- An engine with no rules, no cached data, and no callback (the state right
after `CANMirrorEngine.__init__`). -/
def emptyEngine : CANMirrorEngine :=
  { rules := fun _ => none, last_rx_data := fun _ => none, hasOnTx := false }

/-- Claim C10: `add_rule` installs, for the given `rx_id`, a rule with
`enabled = True` and `last_sent = 0` regardless of any previous rule for that
identifier, and a subsequent matching receipt at any time `now ≥ interval_ms`
issues a driver write (no residual throttling from the replaced rule). -/
theorem c10_add_rule_resets_state (st : CANMirrorEngine) (rx tx : Nat)
    (ext : Bool) (ivl : Int) (brs : Option (List ByteRule)) :
    ((add_rule st rx tx ext ivl brs).rules rx =
      some { tx_id := tx, extended := ext, interval := ivl, last_sent := 0,
             enabled := true, byte_rules := brs.getD [] }) ∧
    (∀ (msg : CANMsg) (now : Int) (w : Bool), msg.ID = rx → ivl ≤ now →
      (handle_rx (add_rule st rx tx ext ivl brs) msg now w).attempted ≠ none) := by
  constructor
  · simp [add_rule]
  · intro msg now w hid hnow
    have hr : (add_rule st rx tx ext ivl brs).rules msg.ID =
        some { tx_id := tx, extended := ext, interval := ivl, last_sent := 0,
               enabled := true, byte_rules := brs.getD [] } := by
      rw [hid]
      simp [add_rule]
    have hnl : ¬((0 : Int) < ivl ∧ now - 0 < ivl) := by
      rintro ⟨a, b⟩
      omega
    rw [handle_rx_attempted_some _ msg now w _ hr rfl hnl]
    simp

def c10Msg : CANMsg :=
  { ID := 0x100, LEN := 1, DATA := [3, 0, 0, 0, 0, 0, 0, 0], extended := false }

/-- Claim C10 witness: adding a rule over an empty table and receiving a
matching frame at time 5 ms with a 5 ms interval issues the write. -/
theorem c10_add_rule_witness :
    ((add_rule emptyEngine 0x100 0x200 false 5 none).rules 0x100 =
      some { tx_id := 0x200, extended := false, interval := 5, last_sent := 0,
             enabled := true, byte_rules := [] }) ∧
    (handle_rx (add_rule emptyEngine 0x100 0x200 false 5 none) c10Msg 5 true).attempted ≠ none :=
  ⟨(c10_add_rule_resets_state emptyEngine 0x100 0x200 false 5 none).1,
   (c10_add_rule_resets_state emptyEngine 0x100 0x200 false 5 none).2
     c10Msg 5 true rfl (by decide)⟩

/-- `PCANViewClone._log_timestamp_us` (pcan_logger.py lines 1727-1736),
state-passing form. `offset` models `self._log_ts_offset_us` (microseconds),
`monoNow` the value of `self._monotonic_us()` at the call. Returns the
logged timestamp and the new offset state. On the first call with a concrete
driver timestamp the offset is frozen as `monoNow - d`; the source's
`(self._log_ts_offset_us or 0)` equals the offset itself since the offset is
set on that path. -/
def logTimestampUs (offset : Option Int) (monoNow : Int)
    (driver_ts_us : Option Int) : Int × Option Int :=
  match driver_ts_us with
  | some d =>
    match offset with
    | none => (d + (monoNow - d), some (monoNow - d))
    | some o => (d + o, some o)
  | none => (monoNow, offset)

/-- Claim C5: with the offset frozen at `o`, the synchronizer preserves
differences of driver timestamps — for any two driver timestamps `d1`, `d2`
in the session, the logged timestamps differ by exactly `d1 - d2`; a call
with no driver timestamp returns the host monotonic clock directly; and the
first call with a concrete driver timestamp freezes
`offset = monoNow - d`. -/
theorem c5_timestamp_offset_preserves_differences (o m1 m2 d1 d2 : Int)
    (off : Option Int) (m : Int) :
    ((logTimestampUs (some o) m1 (some d1)).1 -
       (logTimestampUs (some o) m2 (some d2)).1 = d1 - d2) ∧
    ((logTimestampUs off m none).1 = m) ∧
    ((logTimestampUs none m (some d1)).2 = some (m - d1)) := by
  refine ⟨?_, ?_, ?_⟩
  · simp only [logTimestampUs]
    omega
  · cases off <;> rfl
  · rfl

/-- State of the trace writer in `PCANViewClone.write_trc_entry`
(pcan_logger.py lines 1738-1773) together with its `LogFileHandler`.
`fileIndex` numbers the trace files of the session; `fileSize` is
`os.path.getsize` of the current file; `maxSize` is
`self.log_handler.max_size`; `message_count` and `log_base_ts_us` are the
fields of the same names. -/
structure TrcWriter where
  fileIndex : Nat
  fileSize : Nat
  maxSize : Nat
  message_count : Nat
  log_base_ts_us : Option Int

/-- One data line of the trace, as written by `write_trc_entry`: the file it
went to, sequence number, time offset in milliseconds, direction
(`true` = Tx), identifier, length and payload. -/
structure TrcEntry where
  fileIndex : Nat
  seq : Nat
  offsetMs : ℚ
  direction : Bool
  id : Nat
  len : Nat
  data : List Nat

/-- `PCANViewClone.write_trc_entry` (pcan_logger.py lines 1738-1773) for an
open handler. `lineLen` is the byte length of the rendered line appended by
`self.log_handler.write`. The rotation step `start_new_file` is Modelled
from the spec: `LogFileHandler` lives in `filesize.py`, which is not part of
the sources here; per the spec's Trace Writer section it closes the current
file and opens a new, empty one (`fileIndex + 1`, size 0). The sequence and
time-base resets (`message_count = 1`, `msg_num = 1`,
`log_base_ts_us = None`) are from the source. -/
def write_trc_entry (wtr : TrcWriter) (msg_num : Nat) (ts_us : Option Int)
    (monoNow : Int) (msg : CANMsg) (tx : Bool) (lineLen : Nat) :
    TrcWriter × TrcEntry :=
  let ts := ts_us.getD monoNow
  let rotated := wtr.maxSize ≤ wtr.fileSize
  let w1 := if rotated then
      { wtr with fileIndex := wtr.fileIndex + 1, fileSize := 0,
                 message_count := 1, log_base_ts_us := none }
    else wtr
  let num := if rotated then 1 else msg_num
  let base := w1.log_base_ts_us.getD ts
  let w2 := { w1 with log_base_ts_us := some base }
  let entry : TrcEntry :=
    { fileIndex := w2.fileIndex, seq := num,
      offsetMs := ((ts - base : Int) : ℚ) / 1000,
      direction := tx, id := msg.ID, len := msg.LEN,
      data := msg.DATA.take msg.LEN }
  ({ w2 with fileSize := w2.fileSize + lineLen }, entry)

/-- Claim C4: invoking `write_trc_entry` while the current file's size has
reached the rotation threshold starts a new file (index bumped, size reset)
and writes the entry into that new file with sequence number 1 and offset
0.0; the writer's sequence counter is 1 and its time base is re-frozen at
this entry's timestamp. -/
theorem c4_rotation_resets_seq_and_offset (wtr : TrcWriter) (msg_num : Nat)
    (ts_us : Option Int) (monoNow : Int) (msg : CANMsg) (tx : Bool)
    (lineLen : Nat) (h : wtr.maxSize ≤ wtr.fileSize) :
    ((write_trc_entry wtr msg_num ts_us monoNow msg tx lineLen).2.fileIndex =
       wtr.fileIndex + 1) ∧
    ((write_trc_entry wtr msg_num ts_us monoNow msg tx lineLen).2.seq = 1) ∧
    ((write_trc_entry wtr msg_num ts_us monoNow msg tx lineLen).2.offsetMs = 0) ∧
    ((write_trc_entry wtr msg_num ts_us monoNow msg tx lineLen).1.message_count = 1) ∧
    ((write_trc_entry wtr msg_num ts_us monoNow msg tx lineLen).1.log_base_ts_us =
       some (ts_us.getD monoNow)) := by
  simp [write_trc_entry, if_pos h]

/-- Claim C4 witness: the theorem at a concrete full file (size 1000,
threshold 1000): the entry lands in file 1 with sequence 1 and offset 0. -/
theorem c4_rotation_witness :
    ((write_trc_entry
        { fileIndex := 0, fileSize := 1000, maxSize := 1000,
          message_count := 42, log_base_ts_us := some 111 }
        43 (some 98765) 0 c10Msg false 60).2.fileIndex = 0 + 1) ∧
    ((write_trc_entry
        { fileIndex := 0, fileSize := 1000, maxSize := 1000,
          message_count := 42, log_base_ts_us := some 111 }
        43 (some 98765) 0 c10Msg false 60).2.seq = 1) ∧
    ((write_trc_entry
        { fileIndex := 0, fileSize := 1000, maxSize := 1000,
          message_count := 42, log_base_ts_us := some 111 }
        43 (some 98765) 0 c10Msg false 60).2.offsetMs = 0) ∧
    ((write_trc_entry
        { fileIndex := 0, fileSize := 1000, maxSize := 1000,
          message_count := 42, log_base_ts_us := some 111 }
        43 (some 98765) 0 c10Msg false 60).1.message_count = 1) ∧
    ((write_trc_entry
        { fileIndex := 0, fileSize := 1000, maxSize := 1000,
          message_count := 42, log_base_ts_us := some 111 }
        43 (some 98765) 0 c10Msg false 60).1.log_base_ts_us =
       some ((some (98765 : Int)).getD 0)) :=
  c4_rotation_resets_seq_and_offset
    { fileIndex := 0, fileSize := 1000, maxSize := 1000,
      message_count := 42, log_base_ts_us := some 111 }
    43 (some 98765) 0 c10Msg false 60 (by decide)

/-- An observable event for the selector-gated `MCUCSVLogger`
(pcan_logger.py): a frame delivered to `handle_message` — `tsPresent` is
whether `ts_us` is not `None`, `decodeOk` whether `db.decode_message`
returns rather than raises — or one pass of the `_write_loop` body,
`timeOk` being whether `now >= next_tick`. -/
inductive MCUEvent where
  | frame (tsPresent : Bool) (decodeOk : Bool)
  | tick (timeOk : Bool)
deriving Repr, DecidableEq

/-- State of an `MCUCSVLogger` session. `running` is `self._running`,
`activated` is `self._activated` (with, as in `_init_variant`, the DBC
loaded whenever activated), `update_counter` and `last_written_counter`
the counters of the same names, and `rows` the number of snapshot rows
written so far. -/
structure MCULog where
  running : Bool
  activated : Bool
  update_counter : Nat
  last_written_counter : Nat
  rows : Nat
deriving Repr, DecidableEq

/-- The state right after `_init_variant` succeeds (pcan_logger.py lines
346-372): counters reset to zero, session activated, no rows yet. -/
def mcuInit : MCULog :=
  { running := true, activated := true, update_counter := 0,
    last_written_counter := 0, rows := 0 }

/-- One event of an activated `MCUCSVLogger` session. A frame follows
`handle_message` (pcan_logger.py lines 256-322): nothing happens unless the
logger runs, is activated and a timestamp is present; otherwise
`_update_counter` is incremented whether the decode succeeds or raises (the
`except` path increments too). A tick follows one pass of `_write_loop`
(lines 374-399): no row is written while
`update_counter <= last_written_counter`; otherwise, when the tick time has
come, one row is written and `last_written_counter` is set to the counter
value just read. -/
def mcuStep (s : MCULog) (e : MCUEvent) : MCULog :=
  match e with
  | .frame tsPresent _ =>
    if s.running = false then s
    else if s.activated = false ∨ tsPresent = false then s
    else { s with update_counter := s.update_counter + 1 }
  | .tick timeOk =>
    if s.running = false then s
    else if s.activated = false then s
    else if s.update_counter ≤ s.last_written_counter then s
    else if timeOk then
      { s with rows := s.rows + 1, last_written_counter := s.update_counter }
    else s

/-- A just-activated session run over a list of events. -/
def mcuRun (evs : List MCUEvent) : MCULog :=
  evs.foldl mcuStep mcuInit

/-- A frame event that reaches the decode stage and decodes successfully. -/
def isSuccessfulDecode : MCUEvent → Bool
  | .frame t d => t && d
  | .tick _ => false

/-- A frame event that reaches the decode stage at all (timestamp present),
whether or not decoding succeeds. -/
def isDecodeAttempt : MCUEvent → Bool
  | .frame t _ => t
  | .tick _ => false

/-- Claim C2 counterexample: a just-activated session that receives one
undecodable frame (decode raises) and then a write tick writes a snapshot
row even though no successful decode has occurred — the `except` path also
increments the update counter. -/
theorem c2_failed_decode_enables_row_counterexample :
    ([MCUEvent.frame true false, MCUEvent.tick true].all
       (fun e => !(isSuccessfulDecode e)) = true) ∧
    (mcuRun [MCUEvent.frame true false, MCUEvent.tick true]).rows = 1 := by
  decide

theorem mcuStep_id_of_no_attempt (s : MCULog) (e : MCUEvent)
    (hc : s.update_counter ≤ s.last_written_counter)
    (he : isDecodeAttempt e = false) :
    mcuStep s e = s := by
  cases e with
  | frame t d =>
    simp only [isDecodeAttempt] at he
    subst he
    simp [mcuStep]
  | tick timeOk =>
    simp only [mcuStep]
    by_cases h1 : s.running = false
    · rw [if_pos h1]
    · rw [if_neg h1]
      by_cases h2 : s.activated = false
      · rw [if_pos h2]
      · rw [if_neg h2, if_pos hc]

/-- Claim C2 (amended): once a session is activated, the write loop writes no
snapshot row until at least one decode attempt — a frame reaching the decode
stage, whether it decodes successfully or raises — has occurred since
activation; in particular a just-activated-but-idle session (no frames at
all) never writes a row. -/
theorem c2_no_row_before_first_decode_attempt (evs : List MCUEvent)
    (h : evs.all (fun e => !(isDecodeAttempt e)) = true) :
    (mcuRun evs).rows = 0 := by
  have key : ∀ (l : List MCUEvent) (s : MCULog),
      s.update_counter ≤ s.last_written_counter →
      l.all (fun e => !(isDecodeAttempt e)) = true →
      l.foldl mcuStep s = s := by
    intro l
    induction l with
    | nil => intro s _ _; rfl
    | cons e rest ih =>
      intro s hc hall
      rw [List.all_cons, Bool.and_eq_true] at hall
      have hstep : mcuStep s e = s :=
        mcuStep_id_of_no_attempt s e hc (by simpa using hall.1)
      rw [List.foldl_cons, hstep]
      exact ih s hc hall.2
  rw [mcuRun, key evs mcuInit (by simp [mcuInit]) h]
  rfl

/-- Claim C2 witness: an idle session (one late tick, one frame with no
timestamp) writes no row. -/
theorem c2_no_row_witness :
    (mcuRun [MCUEvent.tick true, MCUEvent.frame false true]).rows = 0 :=
  c2_no_row_before_first_decode_attempt
    [MCUEvent.tick true, MCUEvent.frame false true] (by decide)

/-- Outcome of the driver `Initialize` call in one iteration of
`CANReader.run` (pcan_logger.py lines 424-443): `ok` is `PCAN_ERROR_OK`; any
other return value and a raised exception (which the source maps to
`res = 1`) are `err`. -/
inductive InitR where
  | ok
  | err
deriving Repr, DecidableEq

/-- Outcome of the driver `GetStatus` call: any non-OK value, including the
exception path mapped to `PCAN_ERROR_ILLEGAL_PARAMETER`, is `err`. -/
inductive StatusR where
  | ok
  | err
deriving Repr, DecidableEq

/-- Outcome of the driver `Read` call: a frame (`ok`), an empty queue
(`empty`), an unexpected error code (`err`), or a raised exception
(`exc`). -/
inductive ReadR where
  | ok
  | empty
  | err
  | exc
deriving Repr, DecidableEq

/-- Driver responses one loop iteration of `CANReader.run` would observe; the
step only consumes the calls it actually makes. -/
structure ReaderIter where
  ir : InitR
  sr : StatusR
  rr : ReadR
deriving Repr, DecidableEq

/-- The reader thread's connection state (pcan_logger.py lines 420-422):
`self.connected` and `self.ever_connected`. -/
structure ReaderSt where
  connected : Bool
  ever_connected : Bool
deriving Repr, DecidableEq

/-- The connected portion of one `CANReader.run` iteration (pcan_logger.py
lines 445-493): poll status — on failure (or when the subsequent read
raises) uninitialize, clear `connected`, and emit a connectivity-false only
if `ever_connected`; a frame, an empty queue, or an unexpected read error
code leave the connection state alone and emit no connectivity event. -/
def connectedPhase (s : ReaderSt) (it : ReaderIter) : ReaderSt × List Bool :=
  if it.sr = StatusR.err ∨ it.rr = ReadR.exc then
    ({ s with connected := false },
     if s.ever_connected then [false] else [])
  else (s, [])

/-- One iteration of the `while self.running` loop of `CANReader.run`: when
not connected, try `Initialize` — failure emits nothing and retries after
the backoff; success sets both flags, emits connectivity-true, and falls
through to the connected phase of the same iteration. -/
def readerStep (s : ReaderSt) (it : ReaderIter) : ReaderSt × List Bool :=
  if s.connected then connectedPhase s it
  else if it.ir = InitR.err then (s, [])
  else
    let s1 : ReaderSt := { connected := true, ever_connected := true }
    let p := connectedPhase s1 it
    (p.1, true :: p.2)

def readerRunAux (s : ReaderSt) (acc : List Bool) :
    List ReaderIter → ReaderSt × List Bool
  | [] => (s, acc)
  | it :: rest =>
    readerRunAux (readerStep s it).1 (acc ++ (readerStep s it).2) rest

/-- A whole run of `CANReader.run`: iterate the loop over the listed driver
responses, then the stop epilogue (pcan_logger.py lines 495-504): if still
connected and a connect was ever confirmed, emit a final
connectivity-false. Returns the `status_changed` events in emission
order. -/
def readerRun (iters : List ReaderIter) : List Bool :=
  let p := readerRunAux { connected := false, ever_connected := false } [] iters
  p.2 ++ (if p.1.connected = true ∧ p.1.ever_connected = true then [false] else [])

/-- The expected next element after consuming `l` of an alternating boolean
sequence that starts expecting `e`. -/
def nextExp (e : Bool) : List Bool → Bool
  | [] => e
  | _ :: r => nextExp (!e) r

/-- `l` alternates, starting with `e`. -/
def isAlt (e : Bool) : List Bool → Bool
  | [] => true
  | b :: r => b == e && isAlt (!e) r

/-- Checker for "no disconnected event before the first connected event":
the first emitted event, if any, is connectivity-true. -/
def noFalseBeforeFirstTrue : List Bool → Bool
  | [] => true
  | b :: _ => b

/-- Checker for "never two connectivity-true events without an intervening
connectivity-false": scans with a flag recording an unmatched `true`. -/
def noTwoTrues (pending : Bool) : List Bool → Bool
  | [] => true
  | b :: rest =>
    if b then (if pending then false else noTwoTrues true rest)
    else noTwoTrues false rest

theorem nextExp_append (e : Bool) (l m : List Bool) :
    nextExp e (l ++ m) = nextExp (nextExp e l) m := by
  induction l generalizing e with
  | nil => rfl
  | cons b r ih => simp [nextExp, ih]

theorem isAlt_append (e : Bool) (l m : List Bool) :
    isAlt e (l ++ m) = (isAlt e l && isAlt (nextExp e l) m) := by
  induction l generalizing e with
  | nil => simp [isAlt, nextExp]
  | cons b r ih => simp [isAlt, nextExp, ih, Bool.and_assoc]

theorem noTwoTrues_of_isAlt (l : List Bool) :
    ∀ e : Bool, isAlt e l = true → noTwoTrues (!e) l = true := by
  induction l with
  | nil => intro e _; rfl
  | cons b r ih =>
    intro e h
    rw [isAlt, Bool.and_eq_true, beq_iff_eq] at h
    obtain ⟨hb, hr⟩ := h
    subst hb
    cases b with
    | true => simpa [noTwoTrues] using ih false hr
    | false => simpa [noTwoTrues] using ih true hr

theorem noFalse_of_isAlt (l : List Bool) (h : isAlt true l = true) :
    noFalseBeforeFirstTrue l = true := by
  cases l with
  | nil => rfl
  | cons b r =>
    rw [isAlt, Bool.and_eq_true, beq_iff_eq] at h
    simpa [noFalseBeforeFirstTrue] using h.1

/-- Invariant tying the reader state to the events emitted so far: the
events alternate starting with connectivity-true; `connected` holds exactly
when the last event was connectivity-true; `ever_connected` holds exactly
when some event was emitted. -/
def ReaderInv (s : ReaderSt) (acc : List Bool) : Prop :=
  isAlt true acc = true ∧ s.connected = !(nextExp true acc) ∧
    (s.ever_connected = true ↔ acc ≠ [])

theorem connectedPhase_inv (s : ReaderSt) (it : ReaderIter) (acc : List Bool)
    (h : ReaderInv s acc) (hc : s.connected = true) :
    ReaderInv (connectedPhase s it).1 (acc ++ (connectedPhase s it).2) := by
  obtain ⟨h1, h2, h3⟩ := h
  have hnx : nextExp true acc = false := by
    rw [hc] at h2
    cases hx : nextExp true acc
    · rfl
    · rw [hx] at h2; simp at h2
  have hne : acc ≠ [] := by
    intro hnil
    rw [hnil] at hnx
    simp [nextExp] at hnx
  have hev : s.ever_connected = true := h3.mpr hne
  by_cases hd : it.sr = StatusR.err ∨ it.rr = ReadR.exc
  · simp only [connectedPhase, if_pos hd, hev, if_pos rfl]
    refine ⟨?_, ?_, ?_⟩
    · rw [isAlt_append, h1, hnx]
      rfl
    · rw [nextExp_append, hnx]
      rfl
    · exact iff_of_true rfl (by simp)
  · simp only [connectedPhase, if_neg hd]
    refine ⟨by simpa using h1, by simpa using h2, by simpa using h3⟩

theorem readerStep_inv (s : ReaderSt) (it : ReaderIter) (acc : List Bool)
    (h : ReaderInv s acc) :
    ReaderInv (readerStep s it).1 (acc ++ (readerStep s it).2) := by
  obtain ⟨h1, h2, h3⟩ := h
  cases hc : s.connected with
  | true =>
    simp only [readerStep, hc, if_pos rfl]
    exact connectedPhase_inv s it acc ⟨h1, h2, h3⟩ hc
  | false =>
    by_cases hir : it.ir = InitR.err
    · simp only [readerStep, hc, if_pos hir]
      refine ⟨by simpa using h1, by simpa using h2, by simpa using h3⟩
    · simp only [readerStep, hc, if_neg hir]
      have hnx : nextExp true acc = true := by
        rw [hc] at h2
        cases hx : nextExp true acc
        · rw [hx] at h2; simp at h2
        · rfl
      have hmid : ReaderInv { connected := true, ever_connected := true }
          (acc ++ [true]) := by
        refine ⟨?_, ?_, ?_⟩
        · rw [isAlt_append, h1, hnx]
          rfl
        · rw [nextExp_append, hnx]
          rfl
        · exact iff_of_true rfl (by simp)
      have hrec := connectedPhase_inv
        { connected := true, ever_connected := true } it (acc ++ [true]) hmid rfl
      obtain ⟨g1, g2, g3⟩ := hrec
      refine ⟨?_, ?_, ?_⟩
      · simpa [List.append_assoc] using g1
      · simpa [List.append_assoc] using g2
      · simpa [List.append_assoc] using g3

theorem readerRunAux_inv (l : List ReaderIter) :
    ∀ (s : ReaderSt) (acc : List Bool), ReaderInv s acc →
      ReaderInv (readerRunAux s acc l).1 (readerRunAux s acc l).2 := by
  induction l with
  | nil => intro s acc h; exact h
  | cons it rest ih =>
    intro s acc h
    exact ih (readerStep s it).1 (acc ++ (readerStep s it).2)
      (readerStep_inv s it acc h)

/-- Claim C3: in any single run of the acquisition reader thread — any
sequence of driver responses, including the stop epilogue — no
connectivity-false event precedes the first connectivity-true event, and no
two connectivity-true events occur without an intervening
connectivity-false. -/
theorem c3_connectivity_event_discipline (iters : List ReaderIter) :
    noFalseBeforeFirstTrue (readerRun iters) = true ∧
    noTwoTrues false (readerRun iters) = true := by
  have hinv0 : ReaderInv { connected := false, ever_connected := false } [] :=
    ⟨rfl, rfl, by simp⟩
  have hinv := readerRunAux_inv iters
    { connected := false, ever_connected := false } [] hinv0
  obtain ⟨h1, h2, h3⟩ := hinv
  have halt : isAlt true (readerRun iters) = true := by
    rw [readerRun]
    by_cases hcond :
        (readerRunAux { connected := false, ever_connected := false } [] iters).1.connected = true ∧
        (readerRunAux { connected := false, ever_connected := false } [] iters).1.ever_connected = true
    · rw [if_pos hcond, isAlt_append, h1]
      have hnx : nextExp true
          (readerRunAux { connected := false, ever_connected := false } [] iters).2 = false := by
        have hx2 := h2
        rw [hcond.1] at hx2
        cases hx : nextExp true
            (readerRunAux { connected := false, ever_connected := false } [] iters).2
        · rfl
        · rw [hx] at hx2; simp at hx2
      rw [hnx]
      rfl
    · rw [if_neg hcond]
      simpa using h1
  exact ⟨noFalse_of_isAlt _ halt,
    by simpa using noTwoTrues_of_isAlt (readerRun iters) true halt⟩

example :
    readerRun
      [{ ir := InitR.ok, sr := StatusR.ok, rr := ReadR.ok },
       { ir := InitR.ok, sr := StatusR.err, rr := ReadR.ok },
       { ir := InitR.err, sr := StatusR.ok, rr := ReadR.ok },
       { ir := InitR.ok, sr := StatusR.ok, rr := ReadR.empty }] =
      [true, false, true, false] := by
  decide
